import Mathlib

/-!
Verification of the LiVid V4L2 device library against its specification.

The development shallowly embeds the library's data model and operations:
pure Rust functions become Lean functions, ioctl round trips become
functions parameterised over a driver response function, and fallible or
panicking code returns explicit outcome types.  Byte strings are lists of
naturals below 256; machine integers are naturals with explicit `% 2 ^ w`
arithmetic where wrapping matters.
-/

namespace LiVid

/-- Modelled from the spec: the buffer-type tag (src/buf_type.rs is not in
the sources).  A tag selects which logical stream (capture, output,
metadata capture, ...) a request applies to; the variants here are the
ones the format codec handles.  -/
inductive BufType
  | VIDEO_CAPTURE
  | VIDEO_OUTPUT
  | VIDEO_OVERLAY
  | VIDEO_CAPTURE_MPLANE
  | VIDEO_OUTPUT_MPLANE
  | META_CAPTURE
  | META_OUTPUT
deriving DecidableEq

/-- Modelled from the spec: the numeric discriminant of each buffer-type
tag as used in the wire structures (kernel ABI values). -/
def BufType.toRaw : BufType → Nat
  | .VIDEO_CAPTURE => 1
  | .VIDEO_OUTPUT => 2
  | .VIDEO_OVERLAY => 3
  | .VIDEO_CAPTURE_MPLANE => 9
  | .VIDEO_OUTPUT_MPLANE => 10
  | .META_CAPTURE => 13
  | .META_OUTPUT => 14

/-- Modelled from the spec: the memory mode of a buffer pool
(src/shared.rs is not in the sources); only the shared-memory (mapped)
mode is implemented. -/
inductive Memory
  | MMAP
deriving DecidableEq

/-- Modelled from the spec: a read-oriented stream (src/stream.rs is not
in the sources).  `ReadStream::new` records the buffer-type tag, memory
mode and buffer count that all subsequent buffer requests of the stream
use. -/
structure ReadStream where
  buf_type : BufType
  memory : Memory
  buffer_count : Nat
deriving DecidableEq

/-- Modelled from the spec: a write-oriented stream (src/stream.rs is not
in the sources); as for `ReadStream`, construction records the tag used
by every buffer request of the stream. -/
structure WriteStream where
  buf_type : BufType
  memory : Memory
  buffer_count : Nat
deriving DecidableEq

/-- Modelled from the spec: `ReadStream::new` (src/stream.rs missing). -/
def ReadStream.new (buf_type : BufType) (memory : Memory) (buffer_count : Nat) :
    ReadStream :=
  ⟨buf_type, memory, buffer_count⟩

/-- Modelled from the spec: `WriteStream::new` (src/stream.rs missing). -/
def WriteStream.new (buf_type : BufType) (memory : Memory) (buffer_count : Nat) :
    WriteStream :=
  ⟨buf_type, memory, buffer_count⟩

/-- `VideoCaptureDevice::into_stream` (src/lib.rs, lines 356-363): builds a
`ReadStream` with tag `VIDEO_CAPTURE` and `MMAP` memory. -/
def VideoCaptureDevice.into_stream (buffer_count : Nat) : ReadStream :=
  ReadStream.new .VIDEO_CAPTURE .MMAP buffer_count

/-- `VideoOutputDevice::into_stream` (src/lib.rs, lines 392-399): the source
passes `BufType::VIDEO_CAPTURE` to `WriteStream::new`, exactly as written
there. -/
def VideoOutputDevice.into_stream (buffer_count : Nat) : WriteStream :=
  WriteStream.new .VIDEO_CAPTURE .MMAP buffer_count

/-- `MetaCaptureDevice::into_stream` (src/lib.rs, lines 432-439): builds a
`ReadStream` with tag `META_CAPTURE` and `MMAP` memory. -/
def MetaCaptureDevice.into_stream (buffer_count : Nat) : ReadStream :=
  ReadStream.new .META_CAPTURE .MMAP buffer_count

/-- Four character code identifying a pixel format
(src/pixelformat.rs); `raw` is the `u32` little-endian packing of the
four bytes. -/
structure Pixelformat where
  raw : Nat
deriving DecidableEq

/-- `Pixelformat::from_fourcc` (src/pixelformat.rs, lines 40-42):
`u32::from_le_bytes` of the four bytes (each below 256 by the `u8`
type). -/
def Pixelformat.from_fourcc (b0 b1 b2 b3 : Nat) : Pixelformat :=
  ⟨b0 + 256 * b1 + 65536 * b2 + 16777216 * b3⟩

/-- The `Display` implementation for `Pixelformat` (src/pixelformat.rs,
lines 50-56): `u32::to_le_bytes` and each byte printed as the character
with that code point; the output is the list of the four code points in
print order. -/
def Pixelformat.display (p : Pixelformat) : List Nat :=
  [p.raw % 256, p.raw / 256 % 256, p.raw / 65536 % 256, p.raw / 16777216 % 256]

/-- Index of the first zero byte, mirroring
`bytes.iter().position(|b| *b == 0)` in `byte_array_to_str`
(src/lib.rs, lines 726-732). -/
def position0 : List Nat → Option Nat
  | [] => none
  | b :: rest => if b = 0 then some 0 else (position0 rest).map (· + 1)

/-- The byte-level UTF-8 acceptor: `pending` counts continuation bytes
still expected, the next of which must lie in `lo..hi` (later ones in
`128..191`).  Header bytes encode the standard restrictions: no overlong
encodings, no surrogates, no code points above `U+10FFFF`. -/
def utf8Go : List Nat → Nat → Nat → Nat → Bool
  | [], pending, _, _ => pending == 0
  | b :: rest, 0, _, _ =>
    if b ≤ 127 then utf8Go rest 0 128 191
    else if 194 ≤ b ∧ b ≤ 223 then utf8Go rest 1 128 191
    else if b = 224 then utf8Go rest 2 160 191
    else if 225 ≤ b ∧ b ≤ 236 then utf8Go rest 2 128 191
    else if b = 237 then utf8Go rest 2 128 159
    else if 238 ≤ b ∧ b ≤ 239 then utf8Go rest 2 128 191
    else if b = 240 then utf8Go rest 3 144 191
    else if 241 ≤ b ∧ b ≤ 243 then utf8Go rest 3 128 191
    else if b = 244 then utf8Go rest 3 128 143
    else false
  | b :: rest, pending + 1, lo, hi =>
    if lo ≤ b ∧ b ≤ hi then utf8Go rest pending 128 191
    else false

/-- UTF-8 validity of a byte sequence, as checked by
`std::str::from_utf8`. -/
def utf8Valid (l : List Nat) : Bool :=
  utf8Go l 0 128 191

/-- Outcome of a string decode: either the decoded string (as its byte
sequence) or a process-terminating panic with a message. -/
inductive StrOutcome
  | ok (s : List Nat)
  | crash (msg : String)
deriving DecidableEq

/-- `byte_array_to_str` (src/lib.rs, lines 726-732): position of the
first zero byte (`.expect` panics when there is none), then
`from_utf8(..).unwrap()` of the bytes before it (panics on invalid
UTF-8, returns those very bytes otherwise). -/
def byte_array_to_str (bytes : List Nat) : StrOutcome :=
  match position0 bytes with
  | none => .crash "missing NUL terminator"
  | some len =>
    if utf8Valid (bytes.take len) then .ok (bytes.take len)
    else .crash "invalid utf-8 sequence"

/-- Modelled from the spec: single-planar pixel format payload
(src/format.rs is not in the sources) — dimensions, pixel encoding and
stride/size data of a video stream. -/
structure PixFormat where
  width : Nat
  height : Nat
  pixelformat : Pixelformat
deriving DecidableEq

/-- Modelled from the spec: multi-planar pixel format payload
(src/format.rs missing). -/
structure PixFormatMplane where
  width : Nat
  height : Nat
  pixelformat : Pixelformat
deriving DecidableEq

/-- Modelled from the spec: overlay window format payload
(src/format.rs missing). -/
structure OverlayFmt where
  width : Nat
  height : Nat
deriving DecidableEq

/-- Modelled from the spec: metadata format payload (src/format.rs
missing) — four-character code and buffer size. -/
structure MetaFormat where
  dataformat : Pixelformat
  buffersize : Nat
deriving DecidableEq

/-- Modelled from the spec: the `Format` tagged union keyed by buffer
type (src/format.rs missing); the variants are the ones `set_format_raw`
(src/lib.rs, lines 219-256) encodes. -/
inductive Format
  | VideoCapture (f : PixFormat)
  | VideoOutput (f : PixFormat)
  | VideoCaptureMplane (f : PixFormatMplane)
  | VideoOutputMplane (f : PixFormatMplane)
  | VideoOverlay (f : OverlayFmt)
  | MetaCapture (f : MetaFormat)
  | MetaOutput (f : MetaFormat)
deriving DecidableEq

/-- The buffer-type tag of a `Format` variant. -/
def Format.tag : Format → BufType
  | .VideoCapture _ => .VIDEO_CAPTURE
  | .VideoOutput _ => .VIDEO_OUTPUT
  | .VideoCaptureMplane _ => .VIDEO_CAPTURE_MPLANE
  | .VideoOutputMplane _ => .VIDEO_OUTPUT_MPLANE
  | .VideoOverlay _ => .VIDEO_OVERLAY
  | .MetaCapture _ => .META_CAPTURE
  | .MetaOutput _ => .META_OUTPUT

/-- The raw `v4l2_format` wire structure: a numeric buffer-type
discriminant and a payload union, modelled as a product holding every
union member (encode writes the member selected by the tag, decode reads
the member selected by the discriminant). -/
structure RawFormat where
  type_ : Nat
  pix : PixFormat
  pix_mp : PixFormatMplane
  win : OverlayFmt
  meta : MetaFormat
deriving DecidableEq

/-- `mem::zeroed()` for the raw format structure. -/
def RawFormat.zeroed : RawFormat :=
  ⟨0, ⟨0, 0, ⟨0⟩⟩, ⟨0, 0, ⟨0⟩⟩, ⟨0, 0⟩, ⟨⟨0⟩, 0⟩⟩

/-- The encode half of `Device::set_format_raw` (src/lib.rs, lines
220-251): zero the raw structure, write the discriminant of the
variant's buffer type and the matching union member. -/
def Device.encode_format : Format → RawFormat
  | .VideoCapture f =>
    { RawFormat.zeroed with type_ := BufType.VIDEO_CAPTURE.toRaw, pix := f }
  | .VideoOutput f =>
    { RawFormat.zeroed with type_ := BufType.VIDEO_OUTPUT.toRaw, pix := f }
  | .VideoCaptureMplane f =>
    { RawFormat.zeroed with type_ := BufType.VIDEO_CAPTURE_MPLANE.toRaw, pix_mp := f }
  | .VideoOutputMplane f =>
    { RawFormat.zeroed with type_ := BufType.VIDEO_OUTPUT_MPLANE.toRaw, pix_mp := f }
  | .VideoOverlay f =>
    { RawFormat.zeroed with type_ := BufType.VIDEO_OVERLAY.toRaw, win := f }
  | .MetaCapture f =>
    { RawFormat.zeroed with type_ := BufType.META_CAPTURE.toRaw, meta := f }
  | .MetaOutput f =>
    { RawFormat.zeroed with type_ := BufType.META_OUTPUT.toRaw, meta := f }

/-- Modelled from the spec: `Format::from_raw` (src/format.rs missing) —
decode keyed by the buffer-type discriminant, reading the union member
that discriminant selects, and `None` when the discriminant is outside
the known set (decode never defaults). -/
def Format.from_raw (raw : RawFormat) : Option Format :=
  if raw.type_ = BufType.VIDEO_CAPTURE.toRaw then some (.VideoCapture raw.pix)
  else if raw.type_ = BufType.VIDEO_OUTPUT.toRaw then some (.VideoOutput raw.pix)
  else if raw.type_ = BufType.VIDEO_CAPTURE_MPLANE.toRaw then
    some (.VideoCaptureMplane raw.pix_mp)
  else if raw.type_ = BufType.VIDEO_OUTPUT_MPLANE.toRaw then
    some (.VideoOutputMplane raw.pix_mp)
  else if raw.type_ = BufType.VIDEO_OVERLAY.toRaw then some (.VideoOverlay raw.win)
  else if raw.type_ = BufType.META_CAPTURE.toRaw then some (.MetaCapture raw.meta)
  else if raw.type_ = BufType.META_OUTPUT.toRaw then some (.MetaOutput raw.meta)
  else none

/-- A driver response function: the echoed raw structure of an ioctl
round trip, or `none` when the ioctl itself fails. -/
def DriverFn : Type :=
  RawFormat → Option RawFormat

/-- Outcome of a format operation: a decoded format, an error returned
to the caller, or a process-terminating panic. -/
inductive FmtOutcome
  | ok (f : Format)
  | err (msg : String)
  | crash (msg : String)
deriving DecidableEq

/-- `Device::set_format_raw` (src/lib.rs, lines 219-256): encode the
requested format, run the `S_FMT` ioctl, then decode the echoed bytes
with `Format::from_raw(..).unwrap()` — a failed decode of the echo is a
panic, not a returned error. -/
def Device.set_format_raw (driver : DriverFn) (format : Format) : FmtOutcome :=
  match driver (Device.encode_format format) with
  | none => .err "ioctl failed"
  | some echoed =>
    match Format.from_raw echoed with
    | some fmt => .ok fmt
    | none => .crash "unwrap on None"

/-- `Device::format` (src/lib.rs, lines 202-213): zeroed raw structure
with the requested discriminant, `G_FMT` ioctl, then decode with
`.ok_or_else(..)?` — a failed decode is an error returned to the
caller. -/
def Device.format (driver : DriverFn) (buf_type : Nat) : FmtOutcome :=
  match driver { RawFormat.zeroed with type_ := buf_type } with
  | none => .err "ioctl failed"
  | some raw =>
    match Format.from_raw raw with
    | some fmt => .ok fmt
    | none => .err "unsupported buffer type"

/-- Outcome of `Device::video_capture`: the negotiated pixel format, an
error, or a panic. -/
inductive PixOutcome
  | ok (f : PixFormat)
  | err (msg : String)
  | crash (msg : String)
deriving DecidableEq

/-- `Device::video_capture` (src/lib.rs, lines 266-276): negotiate
`Format::VideoCapture(format)`; a non-`VideoCapture` result hits
`unreachable!()` (a panic). -/
def Device.video_capture (driver : DriverFn) (format : PixFormat) : PixOutcome :=
  match Device.set_format_raw driver (.VideoCapture format) with
  | .ok (.VideoCapture fmt) => .ok fmt
  | .ok _ => .crash "internal error: entered unreachable code"
  | .err m => .err m
  | .crash m => .crash m

/-- The raw `v4l2_capability` structure behind `Capabilities`
(src/lib.rs, lines 452-500): fixed-width zero-padded byte strings and
two capability bit-sets. -/
structure RawCapabilities where
  driver : List Nat
  card : List Nat
  bus_info : List Nat
  capabilities : Nat
  device_caps : Nat
deriving DecidableEq

/-- Modelled from the spec: the `DEVICE_CAPS` capability flag
(src/shared.rs is not in the sources); kernel ABI bit 31. -/
def CapabilityFlags.DEVICE_CAPS : Nat :=
  2147483648

/-- `bitflags` set containment: `a.contains(b)` holds when every bit of
`b` is set in `a`. -/
def flagsContain (set flag : Nat) : Bool :=
  set &&& flag == flag

/-- `Capabilities::driver` (src/lib.rs, lines 463-465). -/
def Capabilities.driver (c : RawCapabilities) : StrOutcome :=
  byte_array_to_str c.driver

/-- `Capabilities::card` (src/lib.rs, lines 471-473). -/
def Capabilities.card (c : RawCapabilities) : StrOutcome :=
  byte_array_to_str c.card

/-- `Capabilities::bus_info` (src/lib.rs, lines 480-482). -/
def Capabilities.bus_info (c : RawCapabilities) : StrOutcome :=
  byte_array_to_str c.bus_info

/-- `Capabilities::all_capabilities` (src/lib.rs, lines 488-490). -/
def Capabilities.all_capabilities (c : RawCapabilities) : Nat :=
  c.capabilities

/-- `Capabilities::device_capabilities` (src/lib.rs, lines 493-499):
the per-handle bit-set when the raw set contains `DEVICE_CAPS`, the raw
set itself otherwise. -/
def Capabilities.device_capabilities (c : RawCapabilities) : Nat :=
  if flagsContain c.capabilities CapabilityFlags.DEVICE_CAPS then c.device_caps
  else c.capabilities

/-- Modelled from the spec: a mapped byte range of one buffer slot
(offset and length returned by a "query buffer" request; src/stream.rs
is not in the sources). -/
structure Mapping where
  offset : Nat
  length : Nat
deriving DecidableEq

/-- Two mapped regions do not overlap. -/
def disjointM (a b : Mapping) : Prop :=
  a.offset + a.length ≤ b.offset ∨ b.offset + b.length ≤ a.offset

/-- Modelled from the spec: the buffer pool (src/stream.rs missing) — a
fixed sequence of slots, each holding its live mapping when mapped, and
a closed flag set at teardown. -/
structure Pool where
  slots : List (Option Mapping)
  closed : Bool
deriving DecidableEq

/-- Modelled from the spec: `allocate` (src/stream.rs missing) — the
"request buffers" control request; `driver_count` is the count the
driver realizes, which becomes the pool's fixed slot count; zero
realized buffers is a failure. -/
def allocate (requested_count driver_count : Nat) : Option Pool :=
  if driver_count = 0 then none
  else some ⟨List.replicate driver_count none, false⟩

/-- Modelled from the spec: releasing a list of live mappings one by one
(each is unmapped in turn, so none stays live). -/
def release_mappings : List Mapping → List Mapping
  | [] => []
  | _ :: rest => release_mappings rest

/-- Modelled from the spec: the slot loop of `map_all` (src/stream.rs
missing).  `query i` is the driver's "query buffer" response for slot
`i` (`none` on failure), `mmapOk i` tells whether mapping slot `i`
succeeds; `fuel` counts the slots still to map and `acc` the mappings
created so far.  On any failure every previously created mapping is
released before the error is returned, and the error carries the
mappings still live. -/
def map_all_go (query : Nat → Option Mapping) (mmapOk : Nat → Bool) :
    Nat → Nat → List Mapping → Except (List Mapping) (List Mapping)
  | 0, _, acc => .ok acc
  | fuel + 1, i, acc =>
    match query i with
    | none => .error (release_mappings acc)
    | some mp =>
      if mmapOk i then map_all_go query mmapOk fuel (i + 1) (acc ++ [mp])
      else .error (release_mappings acc)

/-- Modelled from the spec: `map_all` over the `m` slots of a pool
(src/stream.rs missing). -/
def map_all (query : Nat → Option Mapping) (mmapOk : Nat → Bool) (m : Nat) :
    Except (List Mapping) (List Mapping) :=
  map_all_go query mmapOk m 0 []

/-- Modelled from the spec: the unmap loop of `release` (src/stream.rs
missing): walks the slots from index `i`, attempts one unmap per mapped
slot, and logs (first component: unmap operations performed; second:
indices whose unmap call failed — failure is logged and the walk
continues). -/
def unmapAll (unmapOk : Nat → Bool) : Nat → List (Option Mapping) → Nat × List Nat
  | _, [] => (0, [])
  | i, none :: rest => unmapAll unmapOk (i + 1) rest
  | i, some _ :: rest =>
    let r := unmapAll unmapOk (i + 1) rest
    (r.1 + 1, if unmapOk i then r.2 else i :: r.2)

/-- Modelled from the spec: `release` (src/stream.rs missing) — unmaps
every mapped slot (the mapping is dropped even when the unmap call
fails; the failure is only logged), marks the pool closed, and cannot
fail (the return type has no error case).  Returns the new pool, the
number of unmap operations performed, and the log of failed unmaps. -/
def Pool.release (unmapOk : Nat → Bool) (p : Pool) : Pool × Nat × List Nat :=
  let r := unmapAll unmapOk 0 p.slots
  (⟨List.replicate p.slots.length none, true⟩, r.1, r.2)

/-- Ownership state of one buffer slot (spec §3). -/
inductive SlotState
  | Free
  | Queued
  | Filled
deriving DecidableEq

/-- Direction of a streaming engine: Read (capture) or Write (output). -/
inductive Direction
  | Read
  | Write
deriving DecidableEq

/-- Lifecycle phase of the streaming engine (spec §4.3). -/
inductive Phase
  | Idle
  | Primed
  | Active
  | Closed
deriving DecidableEq

/-- Modelled from the spec: the streaming engine state (src/stream.rs
missing) — direction, lifecycle phase and the per-slot ownership
states. -/
structure Engine where
  dir : Direction
  phase : Phase
  slots : List SlotState
deriving DecidableEq

/-- Initial engine state: pool allocated with `m` slots, all free, not
yet primed. -/
def Engine.init (dir : Direction) (m : Nat) : Engine :=
  ⟨dir, .Idle, List.replicate m .Free⟩

/-- Number of slots currently in state `s`. -/
def countState (s : SlotState) : List SlotState → Nat
  | [] => 0
  | x :: rest => (if x = s then 1 else 0) + countState s rest

/-- Modelled from the spec: the engine's step relation (src/stream.rs
missing; spec §4.3).  Priming a Read engine queues every slot; priming a
Write engine is a no-op; `retrieve`/`resubmit` drive the Read loop,
`submit`/`reclaim` the Write loop; `stop` cancels all driver-held slots
and closes the engine. -/
inductive Step : Engine → Engine → Prop
  | prime_read (e : Engine) : e.phase = .Idle → e.dir = .Read →
      Step e ⟨e.dir, .Primed, e.slots.map fun _ => .Queued⟩
  | prime_write (e : Engine) : e.phase = .Idle → e.dir = .Write →
      Step e ⟨e.dir, .Primed, e.slots⟩
  | start (e : Engine) : e.phase = .Primed →
      Step e ⟨e.dir, .Active, e.slots⟩
  | retrieve (e : Engine) (i : Nat) : e.phase = .Active → e.dir = .Read →
      e.slots.get? i = some .Queued →
      Step e ⟨e.dir, .Active, e.slots.set i .Filled⟩
  | resubmit (e : Engine) (i : Nat) : e.phase = .Active → e.dir = .Read →
      e.slots.get? i = some .Filled →
      Step e ⟨e.dir, .Active, e.slots.set i .Queued⟩
  | submit (e : Engine) (i : Nat) : e.phase = .Active → e.dir = .Write →
      e.slots.get? i = some .Free →
      Step e ⟨e.dir, .Active, e.slots.set i .Queued⟩
  | reclaim (e : Engine) (i : Nat) : e.phase = .Active → e.dir = .Write →
      e.slots.get? i = some .Queued →
      Step e ⟨e.dir, .Active, e.slots.set i .Free⟩
  | stop (e : Engine) : e.phase = .Active →
      Step e ⟨e.dir, .Closed, e.slots.map fun _ => .Free⟩

/-- Engine states reachable from a fresh engine with `m` slots. -/
inductive Reachable (dir : Direction) (m : Nat) : Engine → Prop
  | init : Reachable dir m (Engine.init dir m)
  | step (e e2 : Engine) : Reachable dir m e → Step e e2 → Reachable dir m e2

/-- A slot state is exactly one of Free, Queued, Filled. -/
def exactlyOneState (s : SlotState) : Prop :=
  (s = .Free ∧ s ≠ .Queued ∧ s ≠ .Filled) ∨
  (s = .Queued ∧ s ≠ .Free ∧ s ≠ .Filled) ∨
  (s = .Filled ∧ s ≠ .Free ∧ s ≠ .Queued)

/-- A driver response function that never changes the buffer-type
discriminant of the echoed structure (the documented V4L2 contract:
"the variant will not be changed", src/lib.rs, lines 217-218). -/
def tagPreserving (driver : DriverFn) : Prop :=
  ∀ raw echoed, driver raw = some echoed → echoed.type_ = raw.type_

/-- The buffer-type discriminants the format codec knows. -/
def knownFormatDiscriminants : List Nat :=
  [1, 2, 3, 9, 10, 13, 14]

/-- A driver that echoes requests with the pixel dimensions adjusted to
320 by 240 but the buffer-type discriminant unchanged. -/
def adjustDriver : DriverFn :=
  fun raw => some { raw with pix := ⟨320, 240, raw.pix.pixelformat⟩ }

/-- A concrete raw format echo whose buffer-type discriminant (0) is
outside the known set. -/
def badRaw : RawFormat :=
  { RawFormat.zeroed with type_ := 0 }

/-- A concrete pixel format payload used for concrete evaluations. -/
def pfDemo : PixFormat :=
  ⟨640, 480, ⟨1⟩⟩

/-- A driver that echoes every request unchanged. -/
def echoDriver : DriverFn :=
  fun raw => some raw

/-- A concrete capability descriptor whose raw bit-set contains
`DEVICE_CAPS`. -/
def capsDemo : RawCapabilities :=
  ⟨[118, 0], [99, 0], [112, 0], 2147483648, 5⟩

/-- A concrete driver query response: slot `i` is at offset `4096 * i`,
length 4096. -/
def queryDemo : Nat → Option Mapping :=
  fun i => some ⟨4096 * i, 4096⟩

/-- A concrete two-slot Read engine in the Active phase with both slots
queued. -/
def engineDemo : Engine :=
  ⟨.Read, .Active, [.Queued, .Queued]⟩

/-- The concrete two-slot pool `allocate 2 2` produces. -/
def poolDemo : Pool :=
  ⟨[none, none], false⟩

/-! ## Theorems -/

/-- Claim C1 (code bug): `VideoCaptureDevice::into_stream` and
`MetaCaptureDevice::into_stream` tag their streams `VIDEO_CAPTURE` and
`META_CAPTURE` as the claim states, but `VideoOutputDevice::into_stream`
passes `VIDEO_CAPTURE` — not `VIDEO_OUTPUT` — to `WriteStream::new`, so
the write stream of an output device carries the capture tag. -/
theorem into_stream_output_tag_bug :
    (VideoCaptureDevice.into_stream 2).buf_type = BufType.VIDEO_CAPTURE ∧
    (MetaCaptureDevice.into_stream 2).buf_type = BufType.META_CAPTURE ∧
    (VideoOutputDevice.into_stream 2).buf_type = BufType.VIDEO_CAPTURE ∧
    BufType.VIDEO_CAPTURE ≠ BufType.VIDEO_OUTPUT := by
  refine ⟨rfl, rfl, rfl, ?_⟩
  intro h
  exact BufType.noConfusion h

/-- `position0` returns `none` exactly when the byte array has no zero
byte. -/
theorem position0_none_iff (bytes : List Nat) :
    position0 bytes = none ↔ ¬ 0 ∈ bytes := by
  induction bytes with
  | nil => simp [position0]
  | cons b rest ih =>
    by_cases hb : b = 0
    · subst hb
      simp [position0]
    · simp only [position0, if_neg hb, Option.map_eq_none', ih, List.mem_cons]
      constructor
      · intro h hc
        rcases hc with hc | hc
        · exact hb hc.symm
        · exact h hc
      · intro h hc
        exact h (Or.inr hc)

/-- When `position0` finds the first zero at index `n`, the bytes before
it are exactly the longest zero-free prefix. -/
theorem position0_take (bytes : List Nat) :
    ∀ n, position0 bytes = some n →
      bytes.take n = bytes.takeWhile (fun b => b != 0) := by
  induction bytes with
  | nil => intro n h; simp [position0] at h
  | cons b rest ih =>
    intro n h
    by_cases hb : b = 0
    · subst hb
      simp [position0] at h
      subst h
      simp
    · simp only [position0, if_neg hb, Option.map_eq_some'] at h
      obtain ⟨k, hk, rfl⟩ := h
      have hbne : (b != 0) = true := by
        simp [bne_iff_ne, hb]
      simp [List.take, List.takeWhile_cons, hbne, ih k hk]

/-- Claim C2: on a byte array holding a zero byte, `byte_array_to_str`
returns exactly the (UTF-8) bytes before the first zero and the
no-terminator failure branch is unreachable; on a byte array with no
zero byte it fails unrecoverably (panics). -/
theorem byte_array_to_str_correct (bytes : List Nat) :
    (0 ∈ bytes →
      (utf8Valid (bytes.takeWhile (fun b => b != 0)) = true →
        byte_array_to_str bytes = .ok (bytes.takeWhile (fun b => b != 0))) ∧
      byte_array_to_str bytes ≠ .crash "missing NUL terminator") ∧
    (¬ 0 ∈ bytes → byte_array_to_str bytes = .crash "missing NUL terminator") := by
  constructor
  · intro hmem
    have hpos : position0 bytes ≠ none :=
      fun h => (position0_none_iff bytes).mp h hmem
    obtain ⟨n, hn⟩ := Option.ne_none_iff_exists'.mp hpos
    have htake := position0_take bytes n hn
    refine ⟨fun hvalid => ?_, ?_⟩
    · simp [byte_array_to_str, hn, htake, hvalid]
    · simp only [byte_array_to_str, hn, htake]
      split
      · intro h
        exact StrOutcome.noConfusion h
      · intro h
        have : "invalid utf-8 sequence" = "missing NUL terminator" :=
          StrOutcome.crash.inj h
        exact absurd this (by decide)
  · intro hmem
    have h0 : position0 bytes = none := (position0_none_iff bytes).mpr hmem
    simp [byte_array_to_str, h0]

/-- Witness for C2: the descriptor bytes `[72, 105, 0]` decode to
`"Hi"` (bytes `[72, 105]`), and a terminator-free array panics. -/
theorem byte_array_to_str_correct_witness :
    byte_array_to_str [72, 105, 0] = .ok [72, 105] ∧
    byte_array_to_str [72, 105] = .crash "missing NUL terminator" :=
  ⟨((byte_array_to_str_correct [72, 105, 0]).1 (by decide)).1 (by decide),
   (byte_array_to_str_correct [72, 105]).2 (by decide)⟩

/-- Claim C9: constructing a `Pixelformat` from a 4-byte ASCII fourcc
and then displaying it reproduces the four characters in order — a round
trip through the little-endian `u32` representation. -/
theorem from_fourcc_display_roundtrip (b0 b1 b2 b3 : Nat)
    (h0 : b0 < 128) (h1 : b1 < 128) (h2 : b2 < 128) (h3 : b3 < 128) :
    (Pixelformat.from_fourcc b0 b1 b2 b3).display = [b0, b1, b2, b3] := by
  simp only [Pixelformat.from_fourcc, Pixelformat.display, List.cons.injEq, and_true]
  refine ⟨?_, ?_, ?_, ?_⟩ <;> omega

/-- Witness for C9: `Pixelformat::from_fourcc(b"AB24")` displays as
`"AB24"` (character codes 65, 66, 50, 52). -/
theorem from_fourcc_display_roundtrip_witness :
    (Pixelformat.from_fourcc 65 66 50 52).display = [65, 66, 50, 52] :=
  from_fourcc_display_roundtrip 65 66 50 52 (by decide) (by decide) (by decide)
    (by decide)

/-- Claim C10: `device_capabilities` returns the per-handle `device_caps`
bit-set exactly when the raw bit-set contains `DEVICE_CAPS` and falls
back to the raw bit-set otherwise, and `all_capabilities` always returns
the raw bit-set unchanged. -/
theorem device_capabilities_spec (c : RawCapabilities) :
    (flagsContain c.capabilities CapabilityFlags.DEVICE_CAPS = true →
      Capabilities.device_capabilities c = c.device_caps) ∧
    (flagsContain c.capabilities CapabilityFlags.DEVICE_CAPS = false →
      Capabilities.device_capabilities c = c.capabilities) ∧
    Capabilities.all_capabilities c = c.capabilities := by
  refine ⟨fun h => ?_, fun h => ?_, rfl⟩
  · simp [Capabilities.device_capabilities, h]
  · simp [Capabilities.device_capabilities, h]

/-- Witness for C10: a descriptor whose raw bit-set contains
`DEVICE_CAPS` reports its `device_caps` value (5). -/
theorem device_capabilities_spec_witness :
    Capabilities.device_capabilities capsDemo = capsDemo.device_caps :=
  (device_capabilities_spec capsDemo).1 (by decide)

/-- The encode half of `set_format_raw` writes the discriminant of the
requested variant's buffer type. -/
theorem encode_format_type (f : Format) :
    (Device.encode_format f).type_ = f.tag.toRaw := by
  cases f <;> rfl

/-- A successful decode recovers the discriminant the raw structure
carried: `from_raw` never defaults to a variant of a different tag. -/
theorem from_raw_type (raw : RawFormat) (f : Format)
    (h : Format.from_raw raw = some f) : raw.type_ = f.tag.toRaw := by
  simp only [Format.from_raw] at h
  split_ifs at h with h1 h2 h3 h4 h5 h6 h7
  all_goals first
    | exact Option.noConfusion h
    | (cases h; simp only [Format.tag]; assumption)

/-- The discriminant assignment of buffer-type tags is injective. -/
theorem toRaw_inj (a b : BufType) (h : a.toRaw = b.toRaw) : a = b := by
  cases a <;> cases b <;> first | rfl | exact absurd h (by decide)

/-- Claim C3: when the driver echoes the buffer-type discriminant
unchanged, a successfully negotiated format descriptor decodes to a
`Format` of the same buffer-type tag as the requested one, and a
successful `video_capture` negotiation in particular went through a
`VideoCapture`-variant result. -/
theorem set_format_tag_roundtrip :
    (∀ driver : DriverFn, tagPreserving driver →
      ∀ format fmt, Device.set_format_raw driver format = .ok fmt →
        fmt.tag = format.tag) ∧
    (∀ (driver : DriverFn) (pf fmt : PixFormat),
      Device.video_capture driver pf = .ok fmt →
        Device.set_format_raw driver (.VideoCapture pf) =
          .ok (.VideoCapture fmt)) := by
  constructor
  · intro driver hpres format fmt hok
    unfold Device.set_format_raw at hok
    split at hok
    next heq => exact FmtOutcome.noConfusion hok
    next echoed heq =>
      split at hok
      next f2 heq2 =>
        have hf2 : f2 = fmt := FmtOutcome.ok.inj hok
        have h1 := from_raw_type echoed f2 heq2
        have h2 := hpres _ _ heq
        have h3 := encode_format_type format
        rw [← hf2]
        exact toRaw_inj _ _ (by rw [← h1, h2, h3])
      next heq2 => exact FmtOutcome.noConfusion hok
  · intro driver pf fmt hok
    unfold Device.video_capture at hok
    revert hok
    cases hs : Device.set_format_raw driver (.VideoCapture pf) with
    | ok f =>
      cases f
      case VideoCapture g =>
        intro hok
        rw [PixOutcome.ok.inj hok]
      all_goals exact fun hok => PixOutcome.noConfusion hok
    | err m => exact fun hok => PixOutcome.noConfusion hok
    | crash m => exact fun hok => PixOutcome.noConfusion hok

/-- Witness for C3: a driver that adjusts the dimensions but keeps the
discriminant yields a format with a different value and the same
`VideoCapture` tag as requested. -/
theorem set_format_tag_roundtrip_witness :
    tagPreserving adjustDriver ∧
    Device.set_format_raw adjustDriver (.VideoCapture pfDemo) =
      .ok (.VideoCapture ⟨320, 240, ⟨1⟩⟩) ∧
    Format.tag (.VideoCapture ⟨320, 240, ⟨1⟩⟩) =
      Format.tag (.VideoCapture pfDemo) :=
  ⟨fun raw echoed h => by rw [← Option.some.inj h],
   by decide,
   set_format_tag_roundtrip.1 adjustDriver
     (fun raw echoed h => by rw [← Option.some.inj h])
     (.VideoCapture pfDemo) (.VideoCapture ⟨320, 240, ⟨1⟩⟩) (by decide)⟩

/-- Claim C4 counterexample: a driver echo whose buffer-type
discriminant (0) is outside the known set makes the decode inside format
negotiation (`set_format_raw`) terminate the process (`unwrap` panic)
instead of returning an error to the caller. -/
theorem set_format_unknown_tag_panics :
    ¬ badRaw.type_ ∈ knownFormatDiscriminants ∧
    Device.set_format_raw (fun _ => some badRaw) (.VideoCapture pfDemo) =
      .crash "unwrap on None" ∧
    ∀ msg,
      Device.set_format_raw (fun _ => some badRaw) (.VideoCapture pfDemo) ≠
        .err msg := by
  refine ⟨by decide, rfl, fun msg h => ?_⟩
  rw [show Device.set_format_raw (fun _ => some badRaw) (.VideoCapture pfDemo) =
    .crash "unwrap on None" from rfl] at h
  exact FmtOutcome.noConfusion h

/-- Claim C4 amended: an unknown buffer-type discriminant is never
silently defaulted (`from_raw` rejects it); on the `Device::format` path
the rejection is reported as an error to the caller, but on the decode
of the echoed format inside `set_format_raw` it panics (terminates the
process) instead of returning an error. -/
theorem from_raw_unknown_tag (raw : RawFormat)
    (h : ¬ raw.type_ ∈ knownFormatDiscriminants) :
    Format.from_raw raw = none ∧
    (∀ bt, Device.format (fun _ => some raw) bt =
      .err "unsupported buffer type") ∧
    (∀ f, Device.set_format_raw (fun _ => some raw) f =
      .crash "unwrap on None") := by
  simp only [knownFormatDiscriminants, List.mem_cons, List.not_mem_nil,
    or_false] at h
  push_neg at h
  obtain ⟨n1, n2, n3, n4, n5, n6, n7⟩ := h
  have hnone : Format.from_raw raw = none := by
    simp [Format.from_raw, BufType.toRaw, n1, n2, n3, n4, n5, n6, n7]
  refine ⟨hnone, fun bt => ?_, fun f => ?_⟩
  · simp [Device.format, hnone]
  · simp [Device.set_format_raw, hnone]

/-- Witness for C4 amended: the discriminant-0 echo is rejected by the
decoder, reported as an error by `Device::format`, and panics inside
`set_format_raw`. -/
theorem from_raw_unknown_tag_witness :
    Format.from_raw badRaw = none ∧
    Device.format (fun _ => some badRaw) 1 = .err "unsupported buffer type" ∧
    Device.set_format_raw (fun _ => some badRaw) (.VideoOutput pfDemo) =
      .crash "unwrap on None" :=
  ⟨(from_raw_unknown_tag badRaw (by decide)).1,
   (from_raw_unknown_tag badRaw (by decide)).2.1 1,
   (from_raw_unknown_tag badRaw (by decide)).2.2 (.VideoOutput pfDemo)⟩

/-- Unmapping a list of live mappings one by one leaves none live. -/
theorem release_mappings_nil (maps : List Mapping) :
    release_mappings maps = [] := by
  induction maps with
  | nil => rfl
  | cons a rest ih => simpa [release_mappings] using ih

/-- An erroring `map_all` loop always reports an empty live set: every
mapping created before the failure was released. -/
theorem map_all_go_error (query : Nat → Option Mapping) (mmapOk : Nat → Bool) :
    ∀ fuel i acc live,
      map_all_go query mmapOk fuel i acc = .error live → live = [] := by
  intro fuel
  induction fuel with
  | zero => intro i acc live h; exact Except.noConfusion h
  | succ n ih =>
    intro i acc live h
    unfold map_all_go at h
    split at h
    next heq =>
      rw [← Except.error.inj h, release_mappings_nil]
    next mp heq =>
      split at h
      · exact ih _ _ _ h
      · rw [← Except.error.inj h, release_mappings_nil]

/-- Claim C7: `map_all` is atomic — whenever it fails (whether at a
query-buffer request or at the mapping step), every mapping created
earlier in the same call was released before the error was returned, so
the failed call leaves zero live mappings. -/
theorem map_all_failure_releases_all (query : Nat → Option Mapping)
    (mmapOk : Nat → Bool) (m : Nat)
    (h : ∃ live, map_all query mmapOk m = .error live) :
    map_all query mmapOk m = .error [] := by
  obtain ⟨live, hl⟩ := h
  have hnil := map_all_go_error query mmapOk m 0 [] live hl
  rw [hl, hnil]

/-- Witness for C7: with one slot and a driver whose query-buffer
request fails, `map_all` fails with zero live mappings. -/
theorem map_all_failure_releases_all_witness :
    map_all (fun _ => none) (fun _ => true) 1 = .error [] :=
  map_all_failure_releases_all (fun _ => none) (fun _ => true) 1 ⟨[], rfl⟩

/-- A `map_all` loop over slots whose queries and mappings all succeed
returns one mapping per slot, each the driver's query response for its
slot. -/
theorem map_all_go_ok (query : Nat → Option Mapping) (mmapOk : Nat → Bool) :
    ∀ fuel i acc,
      (∀ j, j < fuel → query (i + j) ≠ none ∧ mmapOk (i + j) = true) →
      ∃ maps, map_all_go query mmapOk fuel i acc = .ok (acc ++ maps) ∧
        maps.length = fuel ∧
        ∀ k mp, maps.get? k = some mp → query (i + k) = some mp := by
  intro fuel
  induction fuel with
  | zero =>
    intro i acc h
    exact ⟨[], by simp [map_all_go], rfl, by simp⟩
  | succ n ih =>
    intro i acc h
    have h0 := h 0 (Nat.succ_pos n)
    rw [Nat.add_zero] at h0
    obtain ⟨mp, hmp⟩ := Option.ne_none_iff_exists'.mp h0.1
    have hrec : ∀ j, j < n → query (i + 1 + j) ≠ none ∧
        mmapOk (i + 1 + j) = true := by
      intro j hj
      have hstep := h (j + 1) (by omega)
      have harith : i + (j + 1) = i + 1 + j := by omega
      rwa [harith] at hstep
    obtain ⟨maps, hgo, hlen, hget⟩ := ih (i + 1) (acc ++ [mp]) hrec
    refine ⟨mp :: maps, ?_, by simp [hlen], ?_⟩
    · unfold map_all_go
      rw [hmp]
      simp only [h0.2, if_true]
      simpa [List.append_assoc] using hgo
    · intro k mp2 hk
      cases k with
      | zero =>
        simp only [List.get?] at hk
        rw [Nat.add_zero, hmp, ← Option.some.inj hk]
      | succ k2 =>
        have hq := hget k2 mp2 (by simpa [List.get?] using hk)
        have harith : i + (k2 + 1) = i + 1 + k2 := by omega
        rw [harith]
        exact hq

/-- Claim C5: a successful `allocate(n)` realizes a slot count `m` with
`1 ≤ m ≤ n` (given the driver never returns more than requested), the
realized count is the pool's fixed size, and a subsequent `map_all`
whose per-slot requests succeed produces exactly `m` regions, which
are pairwise non-overlapping whenever the driver's queried ranges
are. -/
theorem allocate_realized_count (n dc : Nat) (pool : Pool)
    (hle : dc ≤ n) (halloc : allocate n dc = some pool) :
    1 ≤ pool.slots.length ∧ pool.slots.length ≤ n ∧
    ∀ (query : Nat → Option Mapping) (mmapOk : Nat → Bool),
      (∀ j, j < pool.slots.length → query j ≠ none ∧ mmapOk j = true) →
      ∃ maps, map_all query mmapOk pool.slots.length = .ok maps ∧
        maps.length = pool.slots.length ∧
        ((∀ j k mj mk, j < k → query j = some mj → query k = some mk →
            disjointM mj mk) →
          maps.Pairwise disjointM) := by
  unfold allocate at halloc
  split at halloc
  · exact Option.noConfusion halloc
  next hdc =>
    have hpool : pool = ⟨List.replicate dc none, false⟩ :=
      (Option.some.inj halloc).symm
    subst hpool
    simp only [List.length_replicate]
    refine ⟨by omega, hle, ?_⟩
    intro query mmapOk hq
    obtain ⟨maps, hgo, hlen, hget⟩ :=
      map_all_go_ok query mmapOk dc 0 [] (by simpa using hq)
    refine ⟨maps, by simpa [map_all] using hgo, hlen, ?_⟩
    intro hdisj
    rw [List.pairwise_iff_get]
    intro a b hab
    have ha : maps.get? a.val = some (maps.get a) := List.get?_eq_get a.isLt
    have hb : maps.get? b.val = some (maps.get b) := List.get?_eq_get b.isLt
    have hqa := hget a.val (maps.get a) ha
    have hqb := hget b.val (maps.get b) hb
    rw [Nat.zero_add] at hqa hqb
    exact hdisj a.val b.val (maps.get a) (maps.get b) hab hqa hqb

/-- Witness for C5: `allocate(2)` with the driver realizing two buffers
yields a two-slot pool, and `map_all` over it with a well-behaved driver
maps both slots. -/
theorem allocate_realized_count_witness :
    allocate 2 2 = some poolDemo ∧
    1 ≤ poolDemo.slots.length ∧ poolDemo.slots.length ≤ 2 :=
  ⟨rfl, (allocate_realized_count 2 2 poolDemo (by decide) rfl).1,
    (allocate_realized_count 2 2 poolDemo (by decide) rfl).2.1⟩

/-- The unmap walk of `release` over an already fully unmapped pool
performs no unmap operation and logs nothing. -/
theorem unmapAll_replicate_none (unmapOk : Nat → Bool) :
    ∀ k i, unmapAll unmapOk i (List.replicate k (none : Option Mapping)) =
      (0, []) := by
  intro k
  induction k with
  | zero => intro i; rfl
  | succ j ih => intro i; simpa [List.replicate, unmapAll] using ih (i + 1)

/-- Claim C6: `release()` is idempotent — a second call returns the same
`Closed` pool, performs zero unmap operations and logs no failure; and
`release` cannot return an error at all (its return type has no failure
case), whatever the outcomes of the individual unmap calls. -/
theorem release_idempotent (unmapOk : Nat → Bool) (p : Pool) :
    (Pool.release unmapOk (Pool.release unmapOk p).1).1 =
      (Pool.release unmapOk p).1 ∧
    (Pool.release unmapOk p).1.closed = true ∧
    (Pool.release unmapOk (Pool.release unmapOk p).1).2.1 = 0 ∧
    (Pool.release unmapOk (Pool.release unmapOk p).1).2.2 = [] := by
  unfold Pool.release
  simp [unmapAll_replicate_none]

/-- The three slot-state counts of any slot list sum to its length. -/
theorem countState_sum (l : List SlotState) :
    countState .Free l + countState .Queued l + countState .Filled l =
      l.length := by
  induction l with
  | nil => rfl
  | cons x rest ih => cases x <;> simp [countState] <;> omega

/-- Every engine step preserves the number of slots. -/
theorem Step_length (e e2 : Engine) (h : Step e e2) :
    e2.slots.length = e.slots.length := by
  cases h <;> simp

/-- Every reachable engine state keeps the slot count fixed at `m`. -/
theorem reachable_slots_length (dir : Direction) (m : Nat) (e : Engine)
    (h : Reachable dir m e) : e.slots.length = m := by
  induction h with
  | init => simp [Engine.init]
  | step e1 e2 h1 hstep ih => rw [Step_length e1 e2 hstep, ih]

/-- A slot state always satisfies the exactly-one-of-three property. -/
theorem exactlyOneState_all (s : SlotState) : exactlyOneState s := by
  cases s with
  | Free => exact Or.inl ⟨rfl, nofun, nofun⟩
  | Queued => exact Or.inr (Or.inl ⟨rfl, nofun, nofun⟩)
  | Filled => exact Or.inr (Or.inr ⟨rfl, nofun, nofun⟩)

/-- Claim C8: every step of the engine preserves the total of the three
slot-state counts, and in every reachable `Active` engine state each
slot is in exactly one of Free, Queued, Filled while the three counts
sum to the slot count `m`. -/
theorem slot_state_partition :
    (∀ e e2 : Engine, Step e e2 →
      countState .Free e2.slots + countState .Queued e2.slots +
          countState .Filled e2.slots =
        countState .Free e.slots + countState .Queued e.slots +
          countState .Filled e.slots) ∧
    (∀ (dir : Direction) (m : Nat) (e : Engine), Reachable dir m e →
      e.phase = .Active →
      (countState .Free e.slots + countState .Queued e.slots +
          countState .Filled e.slots = m ∧
        ∀ i s, e.slots.get? i = some s → exactlyOneState s)) := by
  constructor
  · intro e e2 h
    rw [countState_sum, countState_sum, Step_length e e2 h]
  · intro dir m e hr hA
    refine ⟨?_, fun i s hs => exactlyOneState_all s⟩
    rw [countState_sum, reachable_slots_length dir m e hr]

/-- Witness for C8: a two-slot Read engine primed and started is a
reachable `Active` state whose slot-state counts sum to 2. -/
theorem slot_state_partition_witness :
    countState .Free engineDemo.slots + countState .Queued engineDemo.slots +
      countState .Filled engineDemo.slots = 2 := by
  have h0 : Reachable Direction.Read 2 (Engine.init .Read 2) := Reachable.init
  have h1 := Reachable.step _ _ h0 (Step.prime_read (Engine.init .Read 2) rfl rfl)
  have h2 := Reachable.step _ _ h1 (Step.start _ rfl)
  have h3 : Reachable Direction.Read 2 engineDemo := h2
  exact (slot_state_partition.2 Direction.Read 2 engineDemo h3 rfl).1

end LiVid
